import Mathlib

/-!
Verification of the media_catalog duplicate-aware ingestion pipeline.

Shallow embedding of the Python sources (excludes.py, scanner.py,
exif_reader.py, copier.py, hasher.py, models.py, catalog_store.py,
catalog.py).  Pure functions become Lean functions; the filesystem and
the catalog file are explicit values threaded through the definitions.
-/

namespace MediaCatalog

/- ── String helpers (models of the Python str operations used) ───────── -/

/-- Python whitespace characters recognised by str.strip (ASCII subset). -/
def isPySpace (c : Char) : Bool :=
  c = ' ' || c = '\t' || c = '\n' || c = '\r' || c = '\x0b' || c = '\x0c'

/-- Model of Python str.strip(): drop whitespace at both ends. -/
def pyStrip (s : String) : String :=
  ((s.toList.dropWhile isPySpace).reverse.dropWhile isPySpace).reverse.asString

/-- Model of Python str.lower() on the ASCII range. -/
def pyLower (s : String) : String :=
  (s.toList.map Char.toLower).asString

/-- str.startswith, computed on the character lists. -/
def strStartsWith (s pre : String) : Bool :=
  pre.toList.isPrefixOf s.toList

/-- str.endswith, computed on the character lists. -/
def strEndsWith (s suf : String) : Bool :=
  suf.toList.isSuffixOf s.toList

/-- Model of Python str.rstrip("/"): drop every trailing slash. -/
def rstripSlash (s : String) : String :=
  (s.toList.reverse.dropWhile (fun c => c = '/')).reverse.asString

/-- Index (from the start) of the last occurrence of c, if any. -/
def lastIdxOf (cs : List Char) (c : Char) : Option Nat :=
  match cs.reverse.findIdx? (fun d => d = c) with
  | none => none
  | some i => some (cs.length - 1 - i)

/-- Model of pathlib suffix: the part of the name from its last dot,
    empty when the dot is absent, leading or trailing. -/
def pathSuffix (name : String) : String :=
  let cs := name.toList
  match lastIdxOf cs '.' with
  | none => ""
  | some i => if 0 < i && i + 1 < cs.length then (cs.drop i).asString else ""

/-- Model of pathlib stem: the name with pathSuffix removed. -/
def pathStem (name : String) : String :=
  (name.toList.take (name.length - (pathSuffix name).length)).asString

/-- Left-pad a numeral with zeros, modelling strftime %Y / %m / %d. -/
def padNum (w n : Nat) : String :=
  let s := toString n
  ((List.replicate (w - s.length) '0').asString) ++ s

/-- strftime "%Y-%m-%d" over a (year, month, day) triple. -/
def formatYmd (y m d : Nat) : String :=
  padNum 4 y ++ "-" ++ padNum 2 m ++ "-" ++ padNum 2 d

/- ── fnmatch.fnmatch (stdlib glob matcher, as used by excludes.py) ────── -/

/-- Model of fnmatch.fnmatch on a case-sensitive filesystem: anchored
    glob matching with `*` and `?`.  Character classes are not modelled;
    no pattern in this repository (or in any claim) uses them, so a `[`
    is matched as the literal character, which is also fnmatch's
    behaviour for an unterminated class.  The fuel argument only bounds
    the recursion (pattern length + input length strictly decreases at
    every call, so the fuel chosen below is always sufficient). -/
def fnmatchFuel : Nat → List Char → List Char → Bool
  | 0, _, _ => false
  | _ + 1, [], [] => true
  | _ + 1, [], _ :: _ => false
  | fu + 1, '*' :: p, s =>
      fnmatchFuel fu p s ||
        (match s with
         | [] => false
         | _ :: s2 => fnmatchFuel fu ('*' :: p) s2)
  | fu + 1, '?' :: p, _ :: s => fnmatchFuel fu p s
  | _ + 1, '?' :: _, [] => false
  | fu + 1, c :: p, d :: s => c = d && fnmatchFuel fu p s
  | _ + 1, _ :: _, [] => false

def fnmatchL (p s : List Char) : Bool :=
  fnmatchFuel (p.length + s.length + 1) p s

/-- fnmatch.fnmatch over Lean strings (pattern second, as in Python). -/
def fnmatchStr (s pat : String) : Bool :=
  fnmatchL pat.toList s.toList

/- ── excludes.py : Excludes ──────────────────────────────────────────── -/

/-- Compiled exclude rule set (excludes.py, Excludes.__init__ fields). -/
structure Excludes where
  dirPatterns : List String
  filePatterns : List String
  extSet : List String
  deriving Repr, DecidableEq

def emptyExcludes : Excludes := ⟨[], [], []⟩

/-- One iteration of the Excludes.__init__ normalisation loop. -/
def addPattern (e : Excludes) (raw : String) : Excludes :=
  let p := pyStrip raw
  if p = "" || strStartsWith p "#" then e
  else
    let dirOnly := strEndsWith p "/"
    let p := rstripSlash p
    if strStartsWith p "." && !(p.toList.contains '*') then
      { e with extSet := e.extSet ++ [pyLower p] }
    else if strStartsWith p "*." && !(p.toList.contains '/') then
      { e with extSet := e.extSet ++ [pyLower (p.drop 1)] }
    else if dirOnly || !(p.toList.contains '/') then
      { e with
        dirPatterns := e.dirPatterns ++ [p]
        filePatterns := if dirOnly then e.filePatterns else e.filePatterns ++ [p] }
    else
      { e with dirPatterns := e.dirPatterns ++ [p] }

/-- Excludes(patterns): fold the normalisation over the raw lines. -/
def mkExcludes (patterns : List String) : Excludes :=
  patterns.foldl addPattern emptyExcludes

/-- str(rel_path) for a relative path given as components
    (pathlib renders the empty relative path as "."). -/
def relStr (rel : List String) : String :=
  if rel = [] then "." else String.intercalate "/" rel

/-- Excludes.should_skip_dir: for each component, try every directory
    pattern; slash-free patterns match the component, slash patterns
    match the full relative path string. -/
def should_skip_dir (e : Excludes) (rel : List String) : Bool :=
  rel.any (fun part =>
    e.dirPatterns.any (fun pat =>
      if !(pat.toList.contains '/') then fnmatchStr part pat
      else fnmatchStr (relStr rel) pat))

/-- Excludes.should_skip_file: extension lookup then file-name patterns
    (only the base name and its suffix are consulted). -/
def should_skip_file (e : Excludes) (name : String) : Bool :=
  e.extSet.contains (pyLower (pathSuffix name)) ||
    e.filePatterns.any (fun pat => fnmatchStr name pat)

/- ── exif_reader.py : dates ──────────────────────────────────────────── -/

/-- A Python datetime value (naive, second precision). -/
structure PyDateTime where
  year : Nat
  month : Nat
  day : Nat
  hour : Nat
  minute : Nat
  second : Nat
  deriving Repr, DecidableEq

/-- Leap-year rule used by datetime's calendar. -/
def isLeap (y : Nat) : Bool :=
  (y % 4 = 0 && y % 100 ≠ 0) || y % 400 = 0

def daysInMonth (y m : Nat) : Nat :=
  if m = 2 then (if isLeap y then 29 else 28)
  else if m = 4 || m = 6 || m = 9 || m = 11 then 30
  else 31

/-- Take up to max leading digits (at least one), as strptime's %Y/%m/…
    field patterns do; returns the value and the rest of the input. -/
def takeDigits (max : Nat) (cs : List Char) : Option (Nat × List Char) :=
  let ds := (cs.take max).takeWhile Char.isDigit
  if ds = [] then none
  else some (ds.foldl (fun n c => n * 10 + (c.toNat - 48)) 0, cs.drop ds.length)

/-- Consume one expected literal character. -/
def expectChar (c : Char) : List Char → Option (List Char)
  | [] => none
  | d :: rest => if d = c then some rest else none

/-- Model of datetime.strptime(s, "%Y:%m:%d %H:%M:%S"): field-wise digit
    parsing followed by the datetime constructor's range validation
    (year 1..9999, month 1..12, day 1..days-in-month, h/m/s in range).
    Any failure raises ValueError in Python, i.e. yields none here. -/
def strptimeExif (s : String) : Option PyDateTime := do
  let (y, r1) ← takeDigits 4 s.toList
  let r2 ← expectChar ':' r1
  let (mo, r3) ← takeDigits 2 r2
  let r4 ← expectChar ':' r3
  let (d, r5) ← takeDigits 2 r4
  let r6 ← expectChar ' ' r5
  let (h, r7) ← takeDigits 2 r6
  let r8 ← expectChar ':' r7
  let (mi, r9) ← takeDigits 2 r8
  let r10 ← expectChar ':' r9
  let (se, r11) ← takeDigits 2 r10
  if r11 = [] && 1 ≤ y && y ≤ 9999 && 1 ≤ mo && mo ≤ 12 &&
      1 ≤ d && d ≤ daysInMonth y mo && h ≤ 23 && mi ≤ 59 && se ≤ 59 then
    some ⟨y, mo, d, h, mi, se⟩
  else none

/-- exif_reader._parse_exif_date: strptime after strip, then the guard
    rejecting year < 1970, month == 0 or day == 0. -/
def parse_exif_date (raw : String) : Option PyDateTime :=
  match strptimeExif (pyStrip raw) with
  | none => none
  | some dt =>
      if dt.year < 1970 ∨ dt.month = 0 ∨ dt.day = 0 then none else some dt

/-- EXIF tags checked in priority order (exif_reader.EXIF_DATE_TAGS). -/
def EXIF_DATE_TAGS : List String :=
  ["EXIF DateTimeOriginal", "EXIF DateTimeDigitized", "Image DateTime"]

/-- QuickTime/video date tags (exif_reader.VIDEO_DATE_TAGS). -/
def VIDEO_DATE_TAGS : List String :=
  ["QuickTime Creation Date", "QuickTime:CreateDate"]

/-- Observable metadata of one file: the two exifread tag maps (first
    read with stop_tag, second full read), whether reading raises, and
    the stat timestamps.  Timestamps are modelled as integral seconds;
    the code only compares them and converts them to dates. -/
structure MediaMeta where
  tags1 : List (String × String)
  tags2 : List (String × String)
  readFails : Bool
  birthtime : Option Int
  ctime : Int
  mtime : Int
  deriving Repr, DecidableEq

/-- First tag of the list that is present and parses to a valid date
    (the per-tag loop bodies in get_date_from_exif). -/
def firstTagDate (names : List String) (tags : List (String × String)) :
    Option PyDateTime :=
  match names with
  | [] => none
  | n :: rest =>
      match tags.lookup n with
      | none => firstTagDate rest tags
      | some raw =>
          match parse_exif_date raw with
          | some dt => some dt
          | none => firstTagDate rest tags

/-- exif_reader.get_date_from_exif.  avail models the module-level
    _EXIFREAD_AVAILABLE flag; readFails models any exception inside the
    try block (caught, yielding (None, "")). -/
def get_date_from_exif (avail : Bool) (f : MediaMeta) :
    Option PyDateTime × String :=
  if !avail then (none, "")
  else if f.readFails then (none, "")
  else
    match firstTagDate EXIF_DATE_TAGS f.tags1 with
    | some dt => (some dt, "exif")
    | none =>
        match firstTagDate VIDEO_DATE_TAGS f.tags1 with
        | some dt => (some dt, "exif")
        | none =>
            match firstTagDate (EXIF_DATE_TAGS ++ VIDEO_DATE_TAGS) f.tags2 with
            | some dt => (some dt, "exif")
            | none => (none, "")

/-- datetime.fromtimestamp modelled at UTC offset zero: civil date from
    days since the 1970-01-01 epoch (Howard Hinnant's algorithm). -/
def fromTimestamp (t : Int) : PyDateTime :=
  let days : Int := t.fdiv 86400
  let secs : Nat := (t.fmod 86400).toNat
  let z : Int := days + 719468
  let era : Int := z.fdiv 146097
  let doe : Nat := (z - era * 146097).toNat
  let yoe : Nat := (doe - doe / 1460 + doe / 36524 - doe / 146096) / 365
  let doy : Nat := doe - (365 * yoe + yoe / 4 - yoe / 100)
  let mp : Nat := (5 * doy + 2) / 153
  let d : Nat := doy - (153 * mp + 2) / 5 + 1
  let m : Nat := if mp < 10 then mp + 3 else mp - 9
  let y : Int := (yoe : Int) + era * 400 + (if m ≤ 2 then 1 else 0)
  ⟨y.toNat, m, d, secs / 3600, secs % 3600 / 60, secs % 60⟩

/-- exif_reader.get_date_from_fs: birthtime when present and positive,
    else ctime when ctime <= mtime, else mtime. -/
def get_date_from_fs (f : MediaMeta) : PyDateTime × String :=
  match f.birthtime with
  | some b =>
      if b > 0 then (fromTimestamp b, "birthtime")
      else if f.ctime ≤ f.mtime then (fromTimestamp f.ctime, "ctime")
      else (fromTimestamp f.mtime, "mtime")
  | none =>
      if f.ctime ≤ f.mtime then (fromTimestamp f.ctime, "ctime")
      else (fromTimestamp f.mtime, "mtime")

/-- exif_reader.get_media_date: EXIF first, then filesystem fallback. -/
def get_media_date (avail : Bool) (f : MediaMeta) : PyDateTime × String :=
  match get_date_from_exif avail f with
  | (some dt, src) => (dt, src)
  | (none, _) => get_date_from_fs f

/- ── scanner.py ──────────────────────────────────────────────────────── -/

def IMAGE_EXTENSIONS : List String :=
  [".jpg", ".jpeg", ".png", ".gif", ".bmp", ".tiff", ".tif",
   ".heic", ".heif", ".webp", ".raw", ".cr2", ".nef", ".arw", ".dng"]

def VIDEO_EXTENSIONS : List String :=
  [".mp4", ".mov", ".avi", ".mkv", ".m4v", ".wmv",
   ".flv", ".webm", ".mts", ".m2ts", ".3gp"]

def CATALOG_FILENAME : String := "media_catalog.json"

/-- scanner.classify_file: image / video / none by lowercased suffix. -/
def classify_file (name : String) : Option String :=
  let ext := pyLower (pathSuffix name)
  if IMAGE_EXTENSIONS.contains ext then some "image"
  else if VIDEO_EXTENSIONS.contains ext then some "video"
  else none

/-- Kind of a filesystem entry as the scanner's stat calls see it. -/
inductive EKind | dir | file | symlinkFile | other
  deriving Repr, DecidableEq

/-- One entry of the recursive walk (an element of rglob("*")), with its
    path relative to the scan root, plus the byte content and metadata
    that the downstream pipeline reads from it. -/
structure Entry where
  rel : List String
  kind : EKind
  size : Nat
  permErr : Bool
  content : String
  meta : MediaMeta
  deriving Repr, DecidableEq

def entryName (f : Entry) : String := (f.rel.getLast?).getD ""

def relParent (rel : List String) : List String := rel.dropLast

/-- scanner._is_hidden: any component starting with a dot. -/
def is_hidden (rel : List String) : Bool :=
  rel.any (fun part => strStartsWith part ".")

/-- Python is_file() (follows symlinks). -/
def isFileKind (k : EKind) : Bool :=
  k = EKind.file || k = EKind.symlinkFile

/-- scanner.scan_directory: the per-entry filter chain, in the code's
    order, over the rglob enumeration of the source tree. -/
def scan_directory (entries : List Entry) (excludes : Excludes) :
    List (Entry × String) :=
  entries.filterMap (fun f =>
    if is_hidden f.rel then none
    else if f.kind = EKind.dir then none
    else if !isFileKind f.kind then none
    else if f.kind = EKind.symlinkFile then none
    else if entryName f = CATALOG_FILENAME then none
    else if relParent f.rel ≠ [] && should_skip_dir excludes (relParent f.rel)
      then none
    else if should_skip_file excludes (entryName f) then none
    else if f.permErr then none
    else if f.size = 0 then none
    else (classify_file (entryName f)).map (fun t => (f, t)))

/-- scanner.count_media_files: the same walk, counted. -/
def count_media_files (entries : List Entry) (excludes : Excludes) : Nat :=
  (scan_directory entries excludes).length

/- ── copier.py ───────────────────────────────────────────────────────── -/

/-- A destination path, split as pathlib exposes it to copier.py:
    the parent directory (rendered as a string) and the file name. -/
structure PathT where
  parent : String
  name : String
  deriving Repr, DecidableEq

def pathStr (p : PathT) : String := p.parent ++ "/" ++ p.name

/-- copier.MEDIA_TYPE_DIRS. -/
def MEDIA_TYPE_DIRS : List (String × String) :=
  [("image", "images"), ("video", "videos")]

def MAX_COLLISION_ATTEMPTS : Nat := 999

/-- copier.build_destination_path:
    target_root / images|videos / YYYY / MM / DD / filename. -/
def build_destination_path (targetRoot : String) (mediaType : String)
    (dateTaken : PyDateTime) (originalFilename : String) : PathT :=
  let typeDir := (MEDIA_TYPE_DIRS.lookup mediaType).getD (mediaType ++ "s")
  { parent := targetRoot ++ "/" ++ typeDir ++ "/" ++ padNum 4 dateTaken.year
      ++ "/" ++ padNum 2 dateTaken.month ++ "/" ++ padNum 2 dateTaken.day
    name := originalFilename }

/-- The candidate with counter k: parent / (stem ++ "_" ++ k ++ suffix). -/
def candidatePath (dest : PathT) (k : Nat) : PathT :=
  { parent := dest.parent
    name := pathStem dest.name ++ "_" ++ toString k ++ pathSuffix dest.name }

/-- Existence on disk; the disk is the finite set of present paths. -/
def onDisk (disk : List PathT) (p : PathT) : Bool := disk.contains p

/-- copier.resolve_collision: return dest when free, else the first
    free candidate for counters 2 .. MAX_COLLISION_ATTEMPTS + 1, else
    raise RuntimeError. -/
def resolve_collision (disk : List PathT) (dest : PathT) :
    Except String PathT :=
  if !onDisk disk dest then .ok dest
  else
    match (List.range' 2 MAX_COLLISION_ATTEMPTS).find?
        (fun k => !onDisk disk (candidatePath dest k)) with
    | some k => .ok (candidatePath dest k)
    | none => .error "Could not resolve filename collision after 999 attempts"

/-- copier.copy_file: resolve the collision, create parents, copy; the
    target disk gains the actual destination, which is returned. -/
def copy_file (disk : List PathT) (dest : PathT) :
    Except String (PathT × List PathT) :=
  match resolve_collision disk dest with
  | .error e => .error e
  | .ok actual => .ok (actual, actual :: disk)

/- ── JSON (the json stdlib as catalog_store.py uses it) ─────────────── -/

/-- JSON syntax trees.  Numbers keep their source lexeme: the catalog
    code never computes with them. -/
inductive Json where
  | jnull : Json
  | jbool : Bool → Json
  | jnum : String → Json
  | jstr : String → Json
  | jarr : List Json → Json
  | jobj : List (String × Json) → Json
  deriving Repr

def isJsonWs (c : Char) : Bool :=
  c = ' ' || c = '\t' || c = '\n' || c = '\r'

def skipWs (cs : List Char) : List Char := cs.dropWhile isJsonWs

def isHexDigitC (c : Char) : Bool :=
  c.isDigit || ('a' ≤ c && c ≤ 'f') || ('A' ≤ c && c ≤ 'F')

/-- Parse a JSON string body after the opening quote; handles the
    escape sequences json.loads accepts. -/
def parseJStr (fuel : Nat) (cs : List Char) : Option (String × List Char) :=
  match fuel, cs with
  | 0, _ => none
  | _, [] => none
  | fu + 1, c :: rest =>
      if c = '"' then some ("", rest)
      else if c = '\\' then
        match rest with
        | [] => none
        | e :: rest2 =>
            let dec : Option (Char × List Char) :=
              if e = '"' then some ('"', rest2)
              else if e = '\\' then some ('\\', rest2)
              else if e = '/' then some ('/', rest2)
              else if e = 'b' then some ('\x08', rest2)
              else if e = 'f' then some ('\x0c', rest2)
              else if e = 'n' then some ('\n', rest2)
              else if e = 'r' then some ('\r', rest2)
              else if e = 't' then some ('\t', rest2)
              else if e = 'u' then
                match rest2 with
                | a :: b :: c2 :: d :: rest3 =>
                    if isHexDigitC a && isHexDigitC b && isHexDigitC c2
                        && isHexDigitC d then
                      let hv := fun (x : Char) =>
                        if x.isDigit then x.toNat - 48
                        else if 'a' ≤ x && x ≤ 'f' then x.toNat - 87
                        else x.toNat - 55
                      some (Char.ofNat
                        (((hv a * 16 + hv b) * 16 + hv c2) * 16 + hv d), rest3)
                    else none
                | _ => none
              else none
            match dec with
            | none => none
            | some (ch, rest3) =>
                match parseJStr fu rest3 with
                | some (s, r) => some (ch.toString ++ s, r)
                | none => none
      else if c.toNat < 32 then none
      else
        match parseJStr fu rest with
        | some (s, r) => some (c.toString ++ s, r)
        | none => none

/-- Lexeme of a JSON number (digits, sign, dot, exponent). -/
def numChar (c : Char) : Bool :=
  c.isDigit || c = '-' || c = '+' || c = '.' || c = 'e' || c = 'E'

mutual

/-- Parse one JSON value (fuel-indexed recursive descent). -/
def parseJVal (fuel : Nat) (cs : List Char) : Option (Json × List Char) :=
  match fuel with
  | 0 => none
  | fu + 1 =>
      match skipWs cs with
      | [] => none
      | c :: rest =>
          if c = '{' then parseJObj fu rest true
          else if c = '[' then parseJArr fu rest true
          else if c = '"' then
            match parseJStr fu rest with
            | some (s, r) => some (.jstr s, r)
            | none => none
          else if c = 't' then
            match rest with
            | 'r' :: 'u' :: 'e' :: r => some (.jbool true, r)
            | _ => none
          else if c = 'f' then
            match rest with
            | 'a' :: 'l' :: 's' :: 'e' :: r => some (.jbool false, r)
            | _ => none
          else if c = 'n' then
            match rest with
            | 'u' :: 'l' :: 'l' :: r => some (.jnull, r)
            | _ => none
          else if c.isDigit || c = '-' then
            let lex := (c :: rest).takeWhile numChar
            some (.jnum lex.asString, (c :: rest).drop lex.length)
          else none

/-- Parse the inside of an object, after "{" (first = true) or after a
    comma. -/
def parseJObj (fuel : Nat) (cs : List Char) (first : Bool) :
    Option (Json × List Char) :=
  match fuel with
  | 0 => none
  | fu + 1 =>
      match skipWs cs with
      | [] => none
      | c :: rest =>
          if c = '}' && first then some (.jobj [], rest)
          else if c = '"' then
            match parseJStr fu rest with
            | none => none
            | some (k, r1) =>
                match skipWs r1 with
                | ':' :: r2 =>
                    match parseJVal fu r2 with
                    | none => none
                    | some (v, r3) =>
                        match skipWs r3 with
                        | ',' :: r4 =>
                            match parseJObj fu r4 false with
                            | some (.jobj kvs, r5) =>
                                some (.jobj ((k, v) :: kvs), r5)
                            | _ => none
                        | '}' :: r4 => some (.jobj [(k, v)], r4)
                        | _ => none
                | _ => none
          else none

/-- Parse the inside of an array, after "[" (first = true) or a comma. -/
def parseJArr (fuel : Nat) (cs : List Char) (first : Bool) :
    Option (Json × List Char) :=
  match fuel with
  | 0 => none
  | fu + 1 =>
      match skipWs cs with
      | [] => none
      | c :: rest =>
          if c = ']' && first then some (.jarr [], rest)
          else
            match parseJVal fu (c :: rest) with
            | none => none
            | some (v, r1) =>
                match skipWs r1 with
                | ',' :: r2 =>
                    match parseJArr fu r2 false with
                    | some (.jarr xs, r3) => some (.jarr (v :: xs), r3)
                    | _ => none
                | ']' :: r2 => some (.jarr [v], r2)
                | _ => none

end

/-- json.loads / json.load of a whole document: one value, then only
    whitespace; anything else is a JSONDecodeError (none). -/
def jsonLoads (s : String) : Option Json :=
  match parseJVal (s.length + 1) s.toList with
  | some (j, rest) => if skipWs rest = [] then some j else none
  | none => none

/-- Escape one character as json.dump (ensure_ascii=False) does. -/
def escChar (c : Char) : String :=
  if c = '"' then "\\\""
  else if c = '\\' then "\\\\"
  else if c = '\n' then "\\n"
  else if c = '\t' then "\\t"
  else if c = '\r' then "\\r"
  else if c.toNat < 32 then
    let hexDigit := fun (n : Nat) =>
      if n < 10 then Char.ofNat (48 + n) else Char.ofNat (87 + n - 10)
    "\\u00" ++ (hexDigit (c.toNat / 16)).toString
      ++ (hexDigit (c.toNat % 16)).toString
  else c.toString

def quoteJson (s : String) : String :=
  "\"" ++ String.join (s.toList.map escChar) ++ "\""

def indentStr (lvl : Nat) : String := (List.replicate (2 * lvl) ' ').asString

/-- json.dump(data, f, indent=2, ensure_ascii=False), fuel-indexed over
    the nesting depth (any sizeOf-sized fuel is exact). -/
def jsonDump : Nat → Nat → Json → String
  | 0, _, _ => ""
  | _ + 1, _, .jnull => "null"
  | _ + 1, _, .jbool true => "true"
  | _ + 1, _, .jbool false => "false"
  | _ + 1, _, .jnum s => s
  | _ + 1, _, .jstr s => quoteJson s
  | _ + 1, _, .jarr [] => "[]"
  | fu + 1, lvl, .jarr (x :: xs) =>
      "[\n" ++ String.intercalate ",\n"
        ((x :: xs).map (fun v => indentStr (lvl + 1) ++ jsonDump fu (lvl + 1) v))
        ++ "\n" ++ indentStr lvl ++ "]"
  | _ + 1, _, .jobj [] => "{}"
  | fu + 1, lvl, .jobj (kv :: kvs) =>
      "\x7b\n" ++ String.intercalate ",\n"
        ((kv :: kvs).map (fun p => indentStr (lvl + 1) ++ quoteJson p.1
          ++ ": " ++ jsonDump fu (lvl + 1) p.2))
        ++ "\n" ++ indentStr lvl ++ "\x7d"

mutual

/-- Executable size of a JSON tree, used as the fuel for jsonDump. -/
def jsonSize : Json → Nat
  | .jarr xs => 1 + jsonSizeL xs
  | .jobj kvs => 1 + jsonSizeKv kvs
  | _ => 1

def jsonSizeL : List Json → Nat
  | [] => 0
  | x :: xs => 1 + jsonSize x + jsonSizeL xs

def jsonSizeKv : List (String × Json) → Nat
  | [] => 0
  | (_, v) :: kvs => 1 + jsonSize v + jsonSizeKv kvs

end

/-- Serialise a whole document. -/
def jsonDumps (j : Json) : String := jsonDump (jsonSize j) 0 j

/- ── models.py ───────────────────────────────────────────────────────── -/

/-- models.FileRecord. -/
structure FileRecord where
  hash : String
  originalPath : String
  destinationPath : String
  mediaType : String
  extension : String
  dateTaken : String
  dateSource : String
  fileSizeBytes : Nat
  catalogedAt : String
  deriving Repr, DecidableEq

/-- FileRecord.to_dict, in the code's field order. -/
def recordToDict (r : FileRecord) : Json :=
  .jobj
    [("hash", .jstr r.hash),
     ("original_path", .jstr r.originalPath),
     ("destination_path", .jstr r.destinationPath),
     ("media_type", .jstr r.mediaType),
     ("extension", .jstr r.extension),
     ("date_taken", .jstr r.dateTaken),
     ("date_source", .jstr r.dateSource),
     ("file_size_bytes", .jnum (toString r.fileSizeBytes)),
     ("cataloged_at", .jstr r.catalogedAt)]

/-- models.ScanSummary. -/
structure ScanSummary where
  sourcePath : String
  filesScanned : Nat := 0
  filesCopied : Nat := 0
  filesSkipped : Nat := 0
  filesErrored : Nat := 0
  errors : List (String × String) := []
  deriving Repr, DecidableEq

/- ── catalog_store.py ───────────────────────────────────────────────── -/

def CATALOG_VERSION : String := "1.0"

/-- In-memory CatalogStore state: _entries (a dict of hash to record
    dict, kept as an insertion-ordered association list, values being
    JSON dicts exactly as Python holds them) and _metadata (a dict with
    the version / created_at / updated_at keys). -/
structure CatalogStore where
  entries : List (String × Json)
  metadata : List (String × Json)
  deriving Repr

/-- Assoc update with Python dict semantics: replace in place when the
    key exists, append otherwise. -/
def dictSet (kvs : List (String × Json)) (k : String) (v : Json) :
    List (String × Json) :=
  if kvs.any (fun kv => kv.1 = k) then
    kvs.map (fun kv => if kv.1 = k then (k, v) else kv)
  else kvs ++ [(k, v)]

/-- CatalogStore.contains. -/
def storeContains (st : CatalogStore) (h : String) : Bool :=
  st.entries.any (fun kv => kv.1 = h)

/-- CatalogStore.add: self._entries[record.hash] = record.to_dict(). -/
def storeAdd (st : CatalogStore) (r : FileRecord) : CatalogStore :=
  { st with entries := dictSet st.entries r.hash (recordToDict r) }

/-- CatalogStore.record_count. -/
def record_count (st : CatalogStore) : Nat := st.entries.length

/-- The fresh catalog the store falls back to (now is _now_iso()). -/
def freshCatalog (now : String) : CatalogStore :=
  { entries := []
    metadata :=
      [("version", .jstr CATALOG_VERSION),
       ("created_at", .jstr now),
       ("updated_at", .jstr now)] }

/-- What the constructor can observe of the catalog file: absent, an
    OSError while opening/reading, or the file's text. -/
inductive DiskRead where
  | absent : DiskRead
  | ioError : DiskRead
  | content : String → DiskRead
  deriving Repr, DecidableEq

/-- CatalogStore._load.  json.JSONDecodeError and OSError are caught
    and yield a fresh catalog; but a document that parses to a non-dict
    reaches data.get, which raises AttributeError, modelled as error.
    (When the parsed "entries" value is itself not a dict Python stores
    it untouched; no claim observes that state, and it is modelled as
    the empty dict here.) -/
def load_catalog (now : String) (disk : DiskRead) :
    Except String CatalogStore :=
  match disk with
  | .absent => .ok (freshCatalog now)
  | .ioError => .ok (freshCatalog now)
  | .content s =>
      match jsonLoads s with
      | none => .ok (freshCatalog now)
      | some (.jobj kvs) =>
          .ok
            { entries :=
                match kvs.lookup "entries" with
                | some (.jobj e) => e
                | _ => []
              metadata :=
                [("version", (kvs.lookup "version").getD (.jstr CATALOG_VERSION)),
                 ("created_at", (kvs.lookup "created_at").getD (.jstr now)),
                 ("updated_at", (kvs.lookup "updated_at").getD (.jstr now))] }
      | some _ =>
          .error "AttributeError: object has no attribute get"

/-- The document save() builds: metadata with updated_at refreshed,
    then the entries keyed by hash ({**metadata, "entries": entries}). -/
def catalogJson (st : CatalogStore) (now : String) : Json :=
  .jobj (dictSet st.metadata "updated_at" (.jstr now)
    ++ [("entries", .jobj st.entries)])

/-- The exact text save() writes (json.dump with indent=2). -/
def save_content (st : CatalogStore) (now : String) : String :=
  jsonDumps (catalogJson st now)

/- Filesystem model for save(): files keyed by path, directory set. -/

structure FsState where
  files : List (PathT × String)
  dirs : List String
  deriving Repr, DecidableEq

def emptyFs : FsState := ⟨[], []⟩

def readFs (fs : FsState) (p : PathT) : Option String :=
  (fs.files.find? (fun kv => kv.1 = p)).map (fun kv => kv.2)

def setFile (fs : FsState) (p : PathT) (c : String) : FsState :=
  { fs with files := (p, c) :: fs.files.filter (fun kv => !(kv.1 = p)) }

def removeFile (fs : FsState) (p : PathT) : FsState :=
  { fs with files := fs.files.filter (fun kv => !(kv.1 = p)) }

/-- os.replace(src, dst): atomic rename in one step. -/
def replacePath (fs : FsState) (src dst : PathT) : FsState :=
  match readFs fs src with
  | some c => setFile (removeFile fs src) dst c
  | none => fs

/-- self._path.parent.mkdir(parents=True, exist_ok=True). -/
def mkdirParents (fs : FsState) (p : PathT) : FsState :=
  { fs with dirs := p.parent :: fs.dirs }

/-- self._path.with_suffix(".tmp"): same directory, stem plus ".tmp". -/
def withSuffixTmp (p : PathT) : PathT :=
  { parent := p.parent, name := pathStem p.name ++ ".tmp" }

def strTake (s : String) (k : Nat) : String := (s.toList.take k).asString

/-- The final filesystem state after save(). -/
def saveFinal (st : CatalogStore) (now : String) (path : PathT)
    (fs0 : FsState) : FsState :=
  let content := save_content st now
  let fs1 := mkdirParents fs0 path
  let tmp := withSuffixTmp path
  replacePath (setFile fs1 tmp content) tmp path

/-- Every filesystem state an observer could see during save(): after
    mkdir, after each partial write of the temporary file (every prefix
    of the serialised text), and after the atomic rename. -/
def save_trace (st : CatalogStore) (now : String) (path : PathT)
    (fs0 : FsState) : List FsState :=
  let content := save_content st now
  let fs1 := mkdirParents fs0 path
  let tmp := withSuffixTmp path
  fs1 ::
    (List.range (content.length + 1)).map
      (fun k => setFile fs1 tmp (strTake content k))
    ++ [saveFinal st now path fs0]

/- ── hasher.py ───────────────────────────────────────────────────────── -/

/-- hasher.compute_hash.  The digest is modelled as the file content
    itself: an injective stand-in for the SHA-256 / MD5 hex digest, so
    files hash identically exactly when their bytes are identical.  The
    algorithm choice does not alter that abstraction. -/
def compute_hash (algo : String) (content : String) : String :=
  if algo = "md5" then content else content

/- ── catalog.py : process_source ─────────────────────────────────────── -/

/-- Per-file outcome inside the process_source loop. -/
inductive FileAction where
  | copied : FileAction
  | skipped : FileAction
  | errored : FileAction
  deriving Repr, DecidableEq

/-- The state process_source threads through its loop: the summary, the
    store, the target-directory contents (for collision resolution),
    the copies_since_save counter and the number of store.save() calls
    performed. -/
structure RunState where
  summary : ScanSummary
  store : CatalogStore
  disk : List PathT
  copiesSinceSave : Nat
  saveCount : Nat
  deriving Repr

/-- Run-wide constants of one process_source call. -/
structure Env where
  exifAvail : Bool
  now : String
  sourcePath : String
  targetRoot : String
  hashAlgo : String
  deriving Repr

/-- str(file_path) for a scanned entry. -/
def entryPath (env : Env) (f : Entry) : String :=
  env.sourcePath ++ "/" ++ relStr f.rel

/-- One iteration of the for-loop in process_source (catalog.py:77-127).
    The try/except around the body catches the collision-exhaustion
    RuntimeError raised by copy_file; environment I/O failures (unreadable
    file, failed stat) have no counterpart in this pure model. -/
def stepFile (env : Env) (dryRun : Bool) (st : RunState)
    (it : Entry × String) : RunState × FileAction :=
  let f := it.1
  let mt := it.2
  let st :=
    { st with summary :=
        { st.summary with filesScanned := st.summary.filesScanned + 1 } }
  let h := compute_hash env.hashAlgo f.content
  if storeContains st.store h then
    ({ st with summary :=
        { st.summary with filesSkipped := st.summary.filesSkipped + 1 } },
     .skipped)
  else
    let dres := get_media_date env.exifAvail f.meta
    let dest := build_destination_path env.targetRoot mt dres.1 (entryName f)
    if dryRun then
      ({ st with summary :=
          { st.summary with filesCopied := st.summary.filesCopied + 1 } },
       .copied)
    else
      match copy_file st.disk dest with
      | .error e =>
          ({ st with summary :=
              { st.summary with
                  filesErrored := st.summary.filesErrored + 1
                  errors := st.summary.errors ++ [(entryPath env f, e)] } },
           .errored)
      | .ok (actual, disk2) =>
          let record : FileRecord :=
            { hash := h
              originalPath := entryPath env f
              destinationPath := pathStr actual
              mediaType := mt
              extension := pyLower (pathSuffix (entryName f))
              dateTaken := formatYmd dres.1.year dres.1.month dres.1.day
              dateSource := dres.2
              fileSizeBytes := f.size
              catalogedAt := env.now }
          let store2 := storeAdd st.store record
          let css := st.copiesSinceSave + 1
          let checkpoint := css ≥ 50
          { summary :=
              { st.summary with filesCopied := st.summary.filesCopied + 1 }
            store := store2
            disk := disk2
            copiesSinceSave := if checkpoint then 0 else css
            saveCount := if checkpoint then st.saveCount + 1 else st.saveCount
          } |> fun st2 => (st2, .copied)

/-- The whole for-loop, also yielding the per-file action trace. -/
def runFiles (env : Env) (dryRun : Bool) :
    List (Entry × String) → RunState → RunState × List FileAction
  | [], st => (st, [])
  | it :: rest, st =>
      let r1 := stepFile env dryRun st it
      let r2 := runFiles env dryRun rest r1.1
      (r2.1, r1.2 :: r2.2)

/-- Initial loop state for one source. -/
def initState (env : Env) (store : CatalogStore) (disk : List PathT) :
    RunState :=
  { summary := { sourcePath := env.sourcePath }
    store := store
    disk := disk
    copiesSinceSave := 0
    saveCount := 0 }

/-- catalog.process_source.  Note (catalog.py:72,77): scan_directory and
    count_media_files are called without an excludes argument — the
    function has no such parameter — so the walk always uses the empty
    rule set.  The final store.save() runs unless dry_run. -/
def process_source (env : Env) (sourceTree : List Entry)
    (store : CatalogStore) (dryRun : Bool) (disk : List PathT) :
    RunState × List FileAction :=
  let items := scan_directory sourceTree emptyExcludes
  let r := runFiles env dryRun items (initState env store disk)
  if dryRun then r
  else ({ r.1 with saveCount := r.1.saveCount + 1 }, r.2)

/- ── Concrete fixtures used by the theorems below ───────────────────── -/

/-- A file with no embedded metadata and plain stat timestamps. -/
def sampleMeta : MediaMeta := ⟨[], [], false, none, 100, 100⟩

def dirEntry (rel : List String) : Entry :=
  ⟨rel, EKind.dir, 0, false, "", sampleMeta⟩

def fileEntry (rel : List String) (content : String) : Entry :=
  ⟨rel, EKind.file, content.length, false, content, sampleMeta⟩

/-- Exclude set compiled from the single segment pattern logs/archive. -/
def c4Excludes : Excludes := mkExcludes ["logs/archive"]

/-- A source tree with a media file two levels below logs/archive. -/
def c4Source : List Entry :=
  [dirEntry ["logs"],
   dirEntry ["logs", "archive"],
   dirEntry ["logs", "archive", "deep"],
   fileEntry ["logs", "archive", "deep", "photo.jpg"] "x"]

/-- Run-wide constants for the concrete pipeline runs. -/
def envFix : Env := ⟨false, "NOW", "/src", "/backup", "sha256"⟩

/-- A source tree whose only media file sits inside a dqhelper folder. -/
def c3Source : List Entry :=
  [dirEntry ["anything"],
   dirEntry ["anything", "dqhelper"],
   fileEntry ["anything", "dqhelper", "photo.jpg"] "p"]

/-- Two differently named files with identical content. -/
def dupSource : List Entry :=
  [fileEntry ["a.jpg"] "same", fileEntry ["b.jpg"] "same"]

/-- First real run over dupSource against a fresh catalog. -/
def dupRun1 : RunState × List FileAction :=
  process_source envFix dupSource (freshCatalog "T") false []

/-- Second real run over the unchanged dupSource with the catalog the
    first run produced. -/
def dupRun2 : RunState × List FileAction :=
  process_source envFix dupSource dupRun1.1.store false []

/-- Records in the store whose key is the given hash. -/
def countKey (st : CatalogStore) (h : String) : Nat :=
  (st.entries.filter (fun kv => kv.1 = h)).length

/-- The hash the process_source loop computes for an item. -/
def itemHash (env : Env) (it : Entry × String) : String :=
  compute_hash env.hashAlgo it.1.content

/-- The destination path the loop builds for an item. -/
def itemDest (env : Env) (it : Entry × String) : PathT :=
  build_destination_path env.targetRoot it.2
    (get_media_date env.exifAvail it.1.meta).1 (entryName it.1)

/-- The FileRecord the loop inserts after a successful copy. -/
def stepRecord (env : Env) (it : Entry × String) (actual : PathT) :
    FileRecord :=
  { hash := itemHash env it
    originalPath := entryPath env it.1
    destinationPath := pathStr actual
    mediaType := it.2
    extension := pyLower (pathSuffix (entryName it.1))
    dateTaken := formatYmd (get_media_date env.exifAvail it.1.meta).1.year
      (get_media_date env.exifAvail it.1.meta).1.month
      (get_media_date env.exifAvail it.1.meta).1.day
    dateSource := (get_media_date env.exifAvail it.1.meta).2
    fileSizeBytes := it.1.size
    catalogedAt := env.now }

/- ════════════════════════════════════════════════════════════════════ -/
/- Theorems                                                              -/
/- ════════════════════════════════════════════════════════════════════ -/

/-- C9: for every target root, kind, date and file name, the destination
    is targetRoot/<segment>/YYYY/MM/DD/<name> with zero-padded date
    fields; the segment is images for image, videos for video, and the
    kind with a literal s appended otherwise; the given concrete example
    renders exactly as stated. -/
theorem C9_build_destination_path (root kind : String) (d : PyDateTime)
    (nm : String) :
    (build_destination_path root "image" d nm).parent
        = root ++ "/" ++ "images" ++ "/" ++ padNum 4 d.year ++ "/"
          ++ padNum 2 d.month ++ "/" ++ padNum 2 d.day
    ∧ (build_destination_path root "video" d nm).parent
        = root ++ "/" ++ "videos" ++ "/" ++ padNum 4 d.year ++ "/"
          ++ padNum 2 d.month ++ "/" ++ padNum 2 d.day
    ∧ (kind ≠ "image" → kind ≠ "video" →
        (build_destination_path root kind d nm).parent
          = root ++ "/" ++ (kind ++ "s") ++ "/" ++ padNum 4 d.year ++ "/"
            ++ padNum 2 d.month ++ "/" ++ padNum 2 d.day)
    ∧ (build_destination_path root kind d nm).name = nm
    ∧ pathStr (build_destination_path "/backup" "image" ⟨2024, 3, 15, 14, 0, 0⟩
        "IMG_0042.jpg") = "/backup/images/2024/03/15/IMG_0042.jpg" := by
  refine ⟨rfl, rfl, ?_, rfl, rfl⟩
  intro h1 h2
  have e1 : (kind == "image") = false := beq_eq_false_iff_ne.mpr h1
  have e2 : (kind == "video") = false := beq_eq_false_iff_ne.mpr h2
  have hl : MEDIA_TYPE_DIRS.lookup kind = none := by
    simp [MEDIA_TYPE_DIRS, List.lookup, e1, e2]
  simp [build_destination_path, hl]

/-- Witness for C9 at a kind outside the known table. -/
theorem C9_witness :
    (build_destination_path "/backup" "audio" ⟨2024, 3, 15, 14, 0, 0⟩
        "x.mp3").parent
      = "/backup" ++ "/" ++ ("audio" ++ "s") ++ "/" ++ padNum 4 2024 ++ "/"
        ++ padNum 2 3 ++ "/" ++ padNum 2 15 :=
  (C9_build_destination_path "/backup" "audio" ⟨2024, 3, 15, 14, 0, 0⟩
    "x.mp3").2.2.1 (by decide) (by decide)

/-- C6: a parsed embedded date with year < 1970, month 0 or day 0 is
    treated as absent; the zeroed EXIF string parses to nothing, so
    resolution falls back to the filesystem timestamps; a valid EXIF
    DateTimeOriginal of 2024:06:01 14:00:00 resolves to that datetime
    with source label exif regardless of the stat timestamps, and its
    date renders as 2024-06-01. -/
theorem C6_exif_validation :
    (∀ s dt, parse_exif_date s = some dt →
      1970 ≤ dt.year ∧ dt.month ≠ 0 ∧ dt.day ≠ 0)
    ∧ parse_exif_date "0000:00:00 00:00:00" = none
    ∧ parse_exif_date "1969:12:31 23:59:59" = none
    ∧ (∀ bt ct mt, get_media_date true
        ⟨[("EXIF DateTimeOriginal", "0000:00:00 00:00:00")], [], false,
          bt, ct, mt⟩
        = get_date_from_fs
            ⟨[("EXIF DateTimeOriginal", "0000:00:00 00:00:00")], [], false,
              bt, ct, mt⟩)
    ∧ (∀ t2 bt ct mt, get_media_date true
        ⟨[("EXIF DateTimeOriginal", "2024:06:01 14:00:00")], t2, false,
          bt, ct, mt⟩
        = (⟨2024, 6, 1, 14, 0, 0⟩, "exif"))
    ∧ formatYmd 2024 6 1 = "2024-06-01" := by
  refine ⟨?_, rfl, rfl, fun bt ct mt => rfl, fun t2 bt ct mt => rfl, rfl⟩
  intro s dt h
  cases hs : strptimeExif (pyStrip s) with
  | none => simp [parse_exif_date, hs] at h
  | some d0 =>
      simp only [parse_exif_date, hs] at h
      by_cases hg : d0.year < 1970 ∨ d0.month = 0 ∨ d0.day = 0
      · rw [if_pos hg] at h; cases h
      · rw [if_neg hg] at h
        cases h
        rw [not_or, not_or] at hg
        exact ⟨by omega, hg.2.1, hg.2.2⟩

/-- Witness for C6 at the valid concrete EXIF string. -/
theorem C6_witness :
    1970 ≤ 2024 ∧ (6 : Nat) ≠ 0 ∧ (1 : Nat) ≠ 0 :=
  C6_exif_validation.1 "2024:06:01 14:00:00" ⟨2024, 6, 1, 14, 0, 0⟩ rfl

/-- get_date_from_exif yields either no date with the empty label, or a
    date with the exif label. -/
theorem exif_result_shape (avail : Bool) (f : MediaMeta) :
    get_date_from_exif avail f = (none, "") ∨
      ∃ dt, get_date_from_exif avail f = (some dt, "exif") := by
  unfold get_date_from_exif
  split
  · exact .inl rfl
  split
  · exact .inl rfl
  cases h1 : firstTagDate EXIF_DATE_TAGS f.tags1 with
  | some dt => exact .inr ⟨dt, by simp [h1]⟩
  | none =>
      cases h2 : firstTagDate VIDEO_DATE_TAGS f.tags1 with
      | some dt => exact .inr ⟨dt, by simp [h1, h2]⟩
      | none =>
          cases h3 : firstTagDate (EXIF_DATE_TAGS ++ VIDEO_DATE_TAGS) f.tags2 with
          | some dt => exact .inr ⟨dt, by simp [h1, h2, h3]⟩
          | none => exact .inl (by simp [h1, h2, h3])

/-- The filesystem fallback always labels its result with one of the
    three stat sources. -/
theorem fs_label (f : MediaMeta) :
    (get_date_from_fs f).2 = "birthtime" ∨ (get_date_from_fs f).2 = "ctime"
      ∨ (get_date_from_fs f).2 = "mtime" := by
  unfold get_date_from_fs
  cases f.birthtime with
  | some b =>
      by_cases hb : b > 0
      · simp [hb]
      · by_cases hc : f.ctime ≤ f.mtime <;> simp [hb, hc]
  | none => by_cases hc : f.ctime ≤ f.mtime <;> simp [hc]

/-- C5: get_media_date is total: it always produces a (date, label) pair
    whose label is one of exif / birthtime / ctime / mtime, and whenever
    metadata extraction produces nothing (including every swallowed
    extraction failure) the result is exactly the filesystem fallback. -/
theorem C5_date_resolver_total (avail : Bool) (f : MediaMeta) :
    ((get_media_date avail f).2 = "exif"
      ∨ (get_media_date avail f).2 = "birthtime"
      ∨ (get_media_date avail f).2 = "ctime"
      ∨ (get_media_date avail f).2 = "mtime")
    ∧ ((get_date_from_exif avail f).1 = none →
        get_media_date avail f = get_date_from_fs f) := by
  have hshape := exif_result_shape avail f
  constructor
  · rcases hshape with h | ⟨dt, h⟩
    · have hfs : get_media_date avail f = get_date_from_fs f := by
        simp [get_media_date, h]
      rw [hfs]
      exact .inr (fs_label f)
    · left
      simp [get_media_date, h]
  · intro hn
    rcases hshape with h | ⟨dt, h⟩
    · simp [get_media_date, h]
    · rw [h] at hn
      cases hn

/-- Witness for C5: with the metadata reader unavailable, resolution is
    the filesystem fallback. -/
theorem C5_witness :
    get_media_date false sampleMeta = get_date_from_fs sampleMeta :=
  (C5_date_resolver_total false sampleMeta).2 rfl

/-- C4 (code bug evidence): the exclude matcher flags the directory
    logs/archive via its registered segment pattern, yet the scanner
    yields the media file two levels beneath it — the file-level
    pruning check only consults the immediate parent path against the
    segment pattern, so contents of a flagged directory are visited at
    depth >= 2, contradicting the pruning rule and the scanner's own
    "skip at the file level too" comment. -/
theorem C4_segment_pruning_divergence :
    should_skip_dir c4Excludes ["logs", "archive"] = true
    ∧ (scan_directory c4Source c4Excludes).map (fun p => p.1.rel)
        = [["logs", "archive", "deep", "photo.jpg"]] := by
  exact ⟨by decide, by decide⟩

/-- C3 (code bug evidence): process_source runs the scan with the empty
    rule set (it has no excludes parameter at all, although its own
    integration tests pass one), so even with the pattern dqhelper
    configured — which flags the directory — the orchestrator scans and
    copies the file inside anything/dqhelper. -/
theorem C3_excludes_not_wired :
    should_skip_dir (mkExcludes ["dqhelper"]) ["anything", "dqhelper"] = true
    ∧ (process_source envFix c3Source (freshCatalog "T") false []).1.summary.filesScanned = 1
    ∧ (process_source envFix c3Source (freshCatalog "T") false []).1.summary.filesCopied = 1 := by
  exact ⟨by decide, by decide, by decide⟩

/-- C2 counterexample: a catalog file whose content is valid JSON but
    not an object — "[]" — does not parse as the expected schema, yet
    construction raises (AttributeError from data.get) instead of
    falling back to a fresh catalog. -/
theorem C2_counterexample :
    load_catalog "T" (DiskRead.content "[]")
      = Except.error "AttributeError: object has no attribute get" := rfl

/-- C2 as amended: a missing file, an OS read error, or content that
    fails JSON parsing never raises and yields the fresh empty catalog;
    in particular `{ not valid json` loads as an empty catalog, and the
    subsequent save writes text that parses back to exactly the
    fresh-catalog document, whose entries object is empty.  (Only a
    parseable non-object top level raises, per the counterexample.) -/
theorem C2_corruption_tolerant_load (now : String) :
    load_catalog now DiskRead.absent = Except.ok (freshCatalog now)
    ∧ load_catalog now DiskRead.ioError = Except.ok (freshCatalog now)
    ∧ (∀ s, jsonLoads s = none →
        load_catalog now (DiskRead.content s) = Except.ok (freshCatalog now))
    ∧ load_catalog now (DiskRead.content "\x7b not valid json")
        = Except.ok (freshCatalog now)
    ∧ jsonLoads (save_content (freshCatalog "T0") "T1")
        = some (catalogJson (freshCatalog "T0") "T1")
    ∧ catalogJson (freshCatalog "T0") "T1"
        = Json.jobj
            [("version", Json.jstr "1.0"), ("created_at", Json.jstr "T0"),
             ("updated_at", Json.jstr "T1"), ("entries", Json.jobj [])] := by
  refine ⟨rfl, rfl, ?_, rfl, rfl, rfl⟩
  intro s h
  simp [load_catalog, h]

/-- Witness for C2: a concrete non-JSON text loads as a fresh catalog. -/
theorem C2_witness :
    load_catalog "X" (DiskRead.content "not json")
      = Except.ok (freshCatalog "X") :=
  (C2_corruption_tolerant_load "X").2.2.1 "not json" rfl

/-- find? over an ascending range returns exactly the first element
    satisfying the predicate. -/
theorem find?_range'_first (p : Nat → Bool) :
    ∀ (n s k : Nat), s ≤ k → k < s + n →
      (∀ j, s ≤ j → j < k → p j = false) → p k = true →
      (List.range' s n).find? p = some k := by
  intro n
  induction n with
  | zero => intro s k h1 h2 _ _; omega
  | succ n ih =>
      intro s k h1 h2 hbefore hk
      rw [List.range'_succ]
      by_cases hs : s = k
      · subst hs
        rw [List.find?_cons_of_pos _ hk]
      · have hlt : s < k := lt_of_le_of_ne h1 hs
        have hps : p s = false := hbefore s le_rfl hlt
        rw [List.find?_cons_of_neg _ (by simp [hps])]
        exact ih (s + 1) k hlt (by omega) (fun j hj1 hj2 => hbefore j (by omega) hj2) hk

/-- C7: resolve_collision returns a non-colliding path unchanged; on a
    colliding path it returns the first free candidate among
    stem_2 .. stem_1000 (never one that exists on disk); and it fails
    exactly when the destination and all 999 candidates exist. -/
theorem C7_resolve_collision (disk : List PathT) (dest : PathT) :
    (onDisk disk dest = false → resolve_collision disk dest = .ok dest)
    ∧ (∀ k, onDisk disk dest = true → 2 ≤ k → k ≤ 1000 →
        (∀ j, 2 ≤ j → j < k → onDisk disk (candidatePath dest j) = true) →
        onDisk disk (candidatePath dest k) = false →
        resolve_collision disk dest = .ok (candidatePath dest k))
    ∧ ((∃ e, resolve_collision disk dest = .error e) ↔
        (onDisk disk dest = true ∧ ∀ k, 2 ≤ k → k ≤ 1000 →
          onDisk disk (candidatePath dest k) = true)) := by
  refine ⟨?_, ?_, ?_, ?_⟩
  · intro h
    simp [resolve_collision, h]
  · intro k hd h2 h1000 hbefore hfree
    have hfind : (List.range' 2 MAX_COLLISION_ATTEMPTS).find?
        (fun j => !onDisk disk (candidatePath dest j)) = some k := by
      refine find?_range'_first _ MAX_COLLISION_ATTEMPTS 2 k h2 ?_ ?_ ?_
      · show k < 2 + 999
        omega
      · intro j hj1 hj2
        simp [hbefore j hj1 hj2]
      · simp [hfree]
    simp [resolve_collision, hd, hfind]
  · rintro ⟨e, he⟩
    by_cases hd : onDisk disk dest
    · cases hf : (List.range' 2 MAX_COLLISION_ATTEMPTS).find?
          (fun j => !onDisk disk (candidatePath dest j)) with
      | some k => simp [resolve_collision, hd, hf] at he
      | none =>
          refine ⟨hd, fun k hk2 hk1000 => ?_⟩
          have hmem : k ∈ List.range' 2 MAX_COLLISION_ATTEMPTS := by
            rw [List.mem_range'_1]
            exact ⟨hk2, by show k < 2 + 999; omega⟩
          have := List.find?_eq_none.mp hf k hmem
          simpa using this
    · simp [resolve_collision, hd] at he
  · rintro ⟨hd, hall⟩
    have hf : (List.range' 2 MAX_COLLISION_ATTEMPTS).find?
        (fun j => !onDisk disk (candidatePath dest j)) = none := by
      refine List.find?_eq_none.mpr (fun x hx => ?_)
      have hm := List.mem_range'_1.mp hx
      have hm2 : x < 2 + 999 := hm.2
      simp [hall x hm.1 (by omega)]
    exact ⟨"Could not resolve filename collision after 999 attempts",
      by simp [resolve_collision, hd, hf]⟩

/-- Witness for C7: one existing file, first candidate free. -/
theorem C7_witness :
    resolve_collision [⟨"/t", "a.jpg"⟩] ⟨"/t", "a.jpg"⟩
      = .ok (candidatePath ⟨"/t", "a.jpg"⟩ 2) :=
  (C7_resolve_collision [⟨"/t", "a.jpg"⟩] ⟨"/t", "a.jpg"⟩).2.1 2
    (by decide) (by decide) (by decide)
    (fun j hj1 hj2 => by omega) (by decide)

/-- Removing entries of a different key does not affect a lookup. -/
theorem find?_filter_ne (l : List (PathT × String)) (p q : PathT)
    (h : p ≠ q) :
    (l.filter (fun kv => !(kv.1 = q))).find? (fun kv => kv.1 = p)
      = l.find? (fun kv => kv.1 = p) := by
  induction l with
  | nil => rfl
  | cons kv l ih =>
      by_cases hq : kv.1 = q
      · have hp : ¬(kv.1 = p) := by rw [hq]; exact fun e => h e.symm
        rw [List.filter_cons_of_neg (by simp [hq]),
          List.find?_cons_of_neg _ (by simp [hp]), ih]
      · by_cases hp : kv.1 = p
        · rw [List.filter_cons_of_pos (by simp [hq]),
            List.find?_cons_of_pos _ (by simp [hp]),
            List.find?_cons_of_pos _ (by simp [hp])]
        · rw [List.filter_cons_of_pos (by simp [hq]),
            List.find?_cons_of_neg _ (by simp [hp]),
            List.find?_cons_of_neg _ (by simp [hp]), ih]

/-- Reading back the path just written. -/
theorem readFs_setFile_same (fs : FsState) (p : PathT) (c : String) :
    readFs (setFile fs p c) p = some c := by
  unfold readFs setFile
  rw [List.find?_cons_of_pos _ (by simp)]
  rfl

/-- Writing one path leaves every other path unchanged. -/
theorem readFs_setFile_ne (fs : FsState) (p q : PathT) (c : String)
    (h : p ≠ q) : readFs (setFile fs q c) p = readFs fs p := by
  unfold readFs setFile
  rw [List.find?_cons_of_neg _ (by simp [Ne.symm h]),
    find?_filter_ne fs.files p q h]

/-- C8 as amended: whenever the temporary sibling path (stem + ".tmp")
    differs from the target — i.e. for every catalog path whose name
    does not already carry the .tmp suffix — every filesystem state
    observable during save() shows the target as either its previous
    content or the complete new serialised catalog; the final state
    holds exactly the new content; the temporary file lives in the same
    directory as the target; and the target's parent directory is
    created. -/
theorem C8_save_atomic (st : CatalogStore) (now : String) (path : PathT)
    (fs0 : FsState) (h : withSuffixTmp path ≠ path) :
    (∀ s ∈ save_trace st now path fs0,
        readFs s path = readFs fs0 path
          ∨ readFs s path = some (save_content st now))
    ∧ readFs (saveFinal st now path fs0) path = some (save_content st now)
    ∧ (withSuffixTmp path).parent = path.parent
    ∧ path.parent ∈ (saveFinal st now path fs0).dirs := by
  have hfs1 : ∀ x, readFs (mkdirParents fs0 path) x = readFs fs0 x :=
    fun x => rfl
  have hfinal : readFs (saveFinal st now path fs0) path
      = some (save_content st now) := by
    unfold saveFinal
    have hr : readFs (setFile (mkdirParents fs0 path) (withSuffixTmp path)
        (save_content st now)) (withSuffixTmp path)
        = some (save_content st now) := readFs_setFile_same _ _ _
    rw [replacePath, hr]
    exact readFs_setFile_same _ _ _
  refine ⟨?_, hfinal, rfl, ?_⟩
  · intro s hs
    unfold save_trace at hs
    rcases List.mem_cons.mp hs with rfl | hs2
    · exact .inl (hfs1 path)
    rcases List.mem_append.mp hs2 with hw | hl
    · rcases List.mem_map.mp hw with ⟨k, _, rfl⟩
      left
      rw [readFs_setFile_ne _ _ _ _ (fun e => h (e.symm)), hfs1]
    · rcases List.mem_singleton.mp hl with rfl
      exact .inr hfinal
  · have hr : readFs (setFile (mkdirParents fs0 path) (withSuffixTmp path)
        (save_content st now)) (withSuffixTmp path)
        = some (save_content st now) := readFs_setFile_same _ _ _
    unfold saveFinal
    rw [replacePath, hr]
    exact List.mem_cons_self _ _

/-- Witness for C8 at a concrete store, path and filesystem. -/
theorem C8_witness :
    readFs (saveFinal (freshCatalog "T0") "T1" ⟨"/t", "catalog.json"⟩ emptyFs)
        ⟨"/t", "catalog.json"⟩
      = some (save_content (freshCatalog "T0") "T1") :=
  (C8_save_atomic (freshCatalog "T0") "T1" ⟨"/t", "catalog.json"⟩ emptyFs
    (by decide)).2.1

/-- C8 counterexample: for a catalog path whose own name ends in .tmp
    the "temporary" path coincides with the target, so a partially
    written state — the single character "{" — is observable at the
    target path even though it is neither the previous content (the
    path was absent) nor the complete new catalog text. -/
theorem C8_counterexample :
    readFs emptyFs ⟨"/t", "catalog.tmp"⟩ = none
    ∧ ((save_trace (freshCatalog "T0") "T1" ⟨"/t", "catalog.tmp"⟩
          emptyFs).get? 2).map (fun s => readFs s ⟨"/t", "catalog.tmp"⟩)
        = some (some "\x7b")
    ∧ ("\x7b" : String) ≠ save_content (freshCatalog "T0") "T1" := by
  exact ⟨rfl, by decide, by decide⟩

/- ── Store-level lemmas ─────────────────────────────────────────────── -/

/-- Updating the value stored under one key leaves the key set unchanged
    for membership tests. -/
theorem any_fst_map_update (l : List (String × Json)) (k : String)
    (v : Json) (h : String) :
    (l.map (fun kv => if kv.1 = k then (k, v) else kv)).any
        (fun kv => kv.1 = h)
      = l.any (fun kv => kv.1 = h) := by
  induction l with
  | nil => rfl
  | cons kv l ih =>
      by_cases hk : kv.1 = k
      · simp [hk, ih]
      · simp [hk, ih]

/-- Updating the value stored under one key leaves per-key counts
    unchanged. -/
theorem countKey_map_update (l : List (String × Json)) (k : String)
    (v : Json) (h : String) :
    ((l.map (fun kv => if kv.1 = k then (k, v) else kv)).filter
        (fun kv => kv.1 = h)).length
      = (l.filter (fun kv => kv.1 = h)).length := by
  induction l with
  | nil => rfl
  | cons kv l ih =>
      rw [List.map_cons]
      by_cases hk : kv.1 = k
      · rw [if_pos hk]
        by_cases hh : k = h
        · rw [List.filter_cons_of_pos (by simp [hh]),
            List.filter_cons_of_pos (by simp [hk, hh])]
          simp [ih]
        · rw [List.filter_cons_of_neg (by simp [hh]),
            List.filter_cons_of_neg (by simp [hk, hh])]
          exact ih
      · rw [if_neg hk]
        by_cases hh : kv.1 = h
        · rw [List.filter_cons_of_pos (by simp [hh]),
            List.filter_cons_of_pos (by simp [hh])]
          simp [ih]
        · rw [List.filter_cons_of_neg (by simp [hh]),
            List.filter_cons_of_neg (by simp [hh])]
          exact ih

/-- Key membership after add: the new key plus all old keys. -/
theorem storeContains_storeAdd (st : CatalogStore) (r : FileRecord)
    (h : String) :
    storeContains (storeAdd st r) h
      = (storeContains st h || (r.hash = h : Bool)) := by
  unfold storeAdd dictSet storeContains
  by_cases hc : st.entries.any (fun kv => kv.1 = r.hash)
  · rw [if_pos hc]
    dsimp only
    rw [any_fst_map_update]
    by_cases hrh : r.hash = h
    · rw [← hrh]
      simp [hc]
    · simp [hrh]
  · rw [if_neg hc]
    dsimp only
    rw [List.any_append]
    simp

/-- A key that is absent has count zero. -/
theorem countKey_eq_zero (st : CatalogStore) (h : String)
    (hc : storeContains st h = false) : countKey st h = 0 := by
  unfold countKey
  rw [List.filter_eq_nil_iff.mpr, List.length_nil]
  intro kv hkv
  unfold storeContains at hc
  rw [List.any_eq_false] at hc
  exact hc kv hkv

/-- Count after add: one more for the added hash (when it was absent),
    unchanged for every other key. -/
theorem countKey_storeAdd (st : CatalogStore) (r : FileRecord)
    (h : String) :
    countKey (storeAdd st r) h
      = if storeContains st r.hash then countKey st h
        else countKey st h + (if r.hash = h then 1 else 0) := by
  by_cases hc : storeContains st r.hash = true
  · rw [if_pos hc]
    unfold countKey storeAdd dictSet
    rw [if_pos (show st.entries.any (fun kv => kv.1 = r.hash) = true from hc)]
    dsimp only
    exact countKey_map_update st.entries r.hash (recordToDict r) h
  · rw [if_neg hc]
    have hc2 : st.entries.any (fun kv => (kv.1 = r.hash : Bool)) = false :=
      Bool.not_eq_true _ ▸ hc
    unfold countKey storeAdd dictSet
    rw [if_neg (show ¬(st.entries.any (fun kv => kv.1 = r.hash) = true) by
      simp [hc2])]
    dsimp only
    rw [List.filter_append, List.length_append]
    by_cases hrh : r.hash = h
    · rw [List.filter_cons_of_pos (by simp [hrh])]
      simp [hrh]
    · rw [List.filter_cons_of_neg (by simp [hrh])]
      simp [hrh]

/- ── Step-level lemmas about the process_source loop body ───────────── -/

/-- A known hash short-circuits to a skip that changes only the scanned
    and skipped counters. -/
theorem stepFile_skip (env : Env) (dry : Bool) (st : RunState)
    (it : Entry × String)
    (hc : storeContains st.store (itemHash env it) = true) :
    stepFile env dry st it
      = ({ st with summary :=
            { st.summary with
                filesScanned := st.summary.filesScanned + 1
                filesSkipped := st.summary.filesSkipped + 1 } },
         FileAction.skipped) := by
  unfold stepFile
  simp [itemHash] at hc
  simp [hc]

/-- In preview mode an unknown hash is counted as copied with no other
    state change. -/
theorem stepFile_dry (env : Env) (st : RunState) (it : Entry × String)
    (hc : storeContains st.store (itemHash env it) = false) :
    stepFile env true st it
      = ({ st with summary :=
            { st.summary with
                filesScanned := st.summary.filesScanned + 1
                filesCopied := st.summary.filesCopied + 1 } },
         FileAction.copied) := by
  unfold stepFile
  simp [itemHash] at hc
  simp [hc]

/-- In a real run a successful copy bumps the copied counter, inserts
    the record, advances the target disk, and handles the checkpoint
    counter. -/
theorem stepFile_copy (env : Env) (st : RunState) (it : Entry × String)
    (actual : PathT) (disk2 : List PathT)
    (hc : storeContains st.store (itemHash env it) = false)
    (hcp : copy_file st.disk (itemDest env it) = .ok (actual, disk2)) :
    stepFile env false st it
      = (⟨{ st.summary with
              filesScanned := st.summary.filesScanned + 1
              filesCopied := st.summary.filesCopied + 1 },
          storeAdd st.store (stepRecord env it actual), disk2,
          (if st.copiesSinceSave + 1 ≥ 50 then 0 else st.copiesSinceSave + 1),
          (if st.copiesSinceSave + 1 ≥ 50 then st.saveCount + 1
           else st.saveCount)⟩,
         FileAction.copied) := by
  unfold stepFile
  simp only [itemHash] at hc
  simp only [itemDest] at hcp
  simp [hc, hcp, stepRecord, itemHash, itemDest]

/-- In a real run a failed copy (collision exhaustion) is recorded as a
    per-file error and nothing else changes. -/
theorem stepFile_error (env : Env) (st : RunState) (it : Entry × String)
    (e : String)
    (hc : storeContains st.store (itemHash env it) = false)
    (hcp : copy_file st.disk (itemDest env it) = .error e) :
    stepFile env false st it
      = ({ st with summary :=
            { st.summary with
                filesScanned := st.summary.filesScanned + 1
                filesErrored := st.summary.filesErrored + 1
                errors := st.summary.errors ++ [(entryPath env it.1, e)] } },
         FileAction.errored) := by
  unfold stepFile
  simp only [itemHash] at hc
  simp only [itemDest] at hcp
  simp [hc, hcp]

/-- All per-iteration facts the run-level inductions need, proved once
    by case analysis over the loop body's branches. -/
theorem stepFile_facts (env : Env) (dry : Bool) (st : RunState)
    (it : Entry × String) :
    ((stepFile env dry st it).1.summary.filesScanned
        = st.summary.filesScanned + 1)
    ∧ ((stepFile env dry st it).1.summary.filesCopied
          + (stepFile env dry st it).1.summary.filesSkipped
          + (stepFile env dry st it).1.summary.filesErrored
        = st.summary.filesCopied + st.summary.filesSkipped
          + st.summary.filesErrored + 1)
    ∧ (∀ h, storeContains st.store h = true →
        storeContains (stepFile env dry st it).1.store h = true)
    ∧ (st.summary.filesErrored
        ≤ (stepFile env dry st it).1.summary.filesErrored)
    ∧ (∀ h, storeContains (stepFile env dry st it).1.store h = true →
        storeContains st.store h = true ∨ itemHash env it = h)
    ∧ (∀ h, storeContains st.store h = true →
        countKey (stepFile env dry st it).1.store h = countKey st.store h)
    ∧ (∀ h, itemHash env it ≠ h →
        countKey (stepFile env dry st it).1.store h = countKey st.store h)
    ∧ ((stepFile env dry st it).2 = .errored →
        (stepFile env dry st it).1.summary.filesErrored
          = st.summary.filesErrored + 1)
    ∧ ((stepFile env dry st it).2 ≠ .errored →
        (stepFile env dry st it).1.summary.filesErrored
          = st.summary.filesErrored)
    ∧ (dry = false → (stepFile env dry st it).2 = .copied →
        storeContains (stepFile env dry st it).1.store (itemHash env it)
          = true)
    ∧ (dry = false → storeContains st.store (itemHash env it) = false →
        ((stepFile env dry st it).2 = .copied
          ∨ (stepFile env dry st it).2 = .errored))
    ∧ (dry = false → (stepFile env dry st it).2 = .copied →
        storeContains st.store (itemHash env it) = false →
        countKey (stepFile env dry st it).1.store (itemHash env it)
          = countKey st.store (itemHash env it) + 1) := by
  by_cases hc : storeContains st.store (itemHash env it) = true
  · rw [stepFile_skip env dry st it hc]
    refine ⟨rfl, by dsimp; omega, fun h hh => hh, le_refl _,
      fun h hh => .inl hh, fun h _ => rfl, fun h _ => rfl,
      ?_, fun _ => rfl, ?_, ?_, ?_⟩
    · intro hx; exact absurd hx (by simp)
    · intro _ hx; exact absurd hx (by simp)
    · intro _ hfalse; rw [hc] at hfalse; cases hfalse
    · intro _ hx; exact absurd hx (by simp)
  · have hc' : storeContains st.store (itemHash env it) = false := by
      simpa using hc
    cases dry with
    | true =>
        rw [stepFile_dry env st it hc']
        refine ⟨rfl, by dsimp; omega, fun h hh => hh, le_refl _,
          fun h hh => .inl hh, fun h _ => rfl, fun h _ => rfl,
          ?_, fun _ => rfl,
          fun hdry _ => absurd hdry (by simp),
          fun hdry _ => absurd hdry (by simp),
          fun hdry _ _ => absurd hdry (by simp)⟩
        intro hx; exact absurd hx (by simp)
    | false =>
        cases hcp : copy_file st.disk (itemDest env it) with
        | error e =>
            rw [stepFile_error env st it e hc' hcp]
            refine ⟨rfl, by dsimp; omega, fun h hh => hh,
              by dsimp; omega, fun h hh => .inl hh, fun h _ => rfl,
              fun h _ => rfl, fun _ => rfl,
              fun hx => absurd rfl hx, ?_,
              fun _ _ => .inr rfl, ?_⟩
            · intro _ hx; exact absurd hx (by simp)
            · intro _ hx; exact absurd hx (by simp)
        | ok pr =>
            obtain ⟨actual, disk2⟩ := pr
            rw [stepFile_copy env st it actual disk2 hc' hcp]
            have hrh : (stepRecord env it actual).hash = itemHash env it :=
              rfl
            refine ⟨rfl, by dsimp; omega, ?_, le_refl _, ?_, ?_, ?_,
              by intro hx; exact absurd hx (by simp), fun _ => rfl, ?_,
              fun _ _ => .inl rfl, ?_⟩
            · intro h hh
              dsimp only
              rw [storeContains_storeAdd, hh, Bool.true_or]
            · intro h hh
              dsimp only at hh
              rw [storeContains_storeAdd, Bool.or_eq_true] at hh
              rcases hh with hh | hh
              · exact .inl hh
              · exact .inr (hrh ▸ (by simpa using hh))
            · intro h hh
              dsimp only
              rw [countKey_storeAdd, hrh, hc']
              have hne : itemHash env it ≠ h := by
                intro e
                rw [e] at hc'
                rw [hh] at hc'
                cases hc'
              simp [hne]
            · intro h hne
              dsimp only
              rw [countKey_storeAdd, hrh, hc']
              simp [hne]
            · intro _ _
              dsimp only
              rw [storeContains_storeAdd, hrh]
              simp
            · intro _ _ _
              dsimp only
              rw [countKey_storeAdd, hrh, hc']
              simp

/- ── Run-level lemmas about the whole loop ──────────────────────────── -/

theorem runFiles_len (env : Env) (dry : Bool)
    (items : List (Entry × String)) :
    ∀ st, (runFiles env dry items st).2.length = items.length := by
  induction items with
  | nil => intro st; rfl
  | cons it rest ih =>
      intro st
      simp only [runFiles]
      simp [ih]

theorem runFiles_scanned (env : Env) (dry : Bool)
    (items : List (Entry × String)) :
    ∀ st, (runFiles env dry items st).1.summary.filesScanned
      = st.summary.filesScanned + items.length := by
  induction items with
  | nil => intro st; rfl
  | cons it rest ih =>
      intro st
      simp only [runFiles]
      rw [ih, (stepFile_facts env dry st it).1, List.length_cons]
      omega

theorem runFiles_sum (env : Env) (dry : Bool)
    (items : List (Entry × String)) :
    ∀ st, (runFiles env dry items st).1.summary.filesCopied
        + (runFiles env dry items st).1.summary.filesSkipped
        + (runFiles env dry items st).1.summary.filesErrored
      = st.summary.filesCopied + st.summary.filesSkipped
        + st.summary.filesErrored + items.length := by
  induction items with
  | nil => intro st; rfl
  | cons it rest ih =>
      intro st
      simp only [runFiles]
      rw [ih]
      have := (stepFile_facts env dry st it).2.1
      rw [List.length_cons]
      omega

theorem runFiles_mono (env : Env) (dry : Bool)
    (items : List (Entry × String)) :
    ∀ st h, storeContains st.store h = true →
      storeContains (runFiles env dry items st).1.store h = true := by
  induction items with
  | nil => intro st h hh; exact hh
  | cons it rest ih =>
      intro st h hh
      simp only [runFiles]
      exact ih _ h ((stepFile_facts env dry st it).2.2.1 h hh)

theorem runFiles_err_mono (env : Env) (dry : Bool)
    (items : List (Entry × String)) :
    ∀ st, st.summary.filesErrored
      ≤ (runFiles env dry items st).1.summary.filesErrored := by
  induction items with
  | nil => intro st; exact le_refl _
  | cons it rest ih =>
      intro st
      simp only [runFiles]
      exact le_trans (stepFile_facts env dry st it).2.2.2.1 (ih _)

theorem runFiles_new_key (env : Env) (dry : Bool)
    (items : List (Entry × String)) :
    ∀ st h, storeContains (runFiles env dry items st).1.store h = true →
      storeContains st.store h = true ∨ ∃ g ∈ items, itemHash env g = h := by
  induction items with
  | nil => intro st h hh; exact .inl hh
  | cons it rest ih =>
      intro st h hh
      simp only [runFiles] at hh
      rcases ih _ h hh with h1 | ⟨g, hg, hgh⟩
      · rcases (stepFile_facts env dry st it).2.2.2.2.1 h h1 with h2 | h2
        · exact .inl h2
        · exact .inr ⟨it, List.mem_cons_self _ _, h2⟩
      · exact .inr ⟨g, List.mem_cons_of_mem _ hg, hgh⟩

theorem runFiles_countKey_keep (env : Env) (dry : Bool)
    (items : List (Entry × String)) :
    ∀ st h, storeContains st.store h = true →
      countKey (runFiles env dry items st).1.store h
        = countKey st.store h := by
  induction items with
  | nil => intro st h _; rfl
  | cons it rest ih =>
      intro st h hh
      simp only [runFiles]
      rw [ih _ h ((stepFile_facts env dry st it).2.2.1 h hh),
        (stepFile_facts env dry st it).2.2.2.2.2.1 h hh]

theorem runFiles_countKey_ne (env : Env) (dry : Bool)
    (items : List (Entry × String)) :
    ∀ st h, (∀ g ∈ items, itemHash env g ≠ h) →
      countKey (runFiles env dry items st).1.store h
        = countKey st.store h := by
  induction items with
  | nil => intro st h _; rfl
  | cons it rest ih =>
      intro st h hall
      simp only [runFiles]
      rw [ih _ h (fun g hg => hall g (List.mem_cons_of_mem _ hg)),
        (stepFile_facts env dry st it).2.2.2.2.2.2.1 h
          (hall it (List.mem_cons_self _ _))]

theorem runFiles_append (env : Env) (dry : Bool)
    (l1 l2 : List (Entry × String)) :
    ∀ st, runFiles env dry (l1 ++ l2) st
      = ((runFiles env dry l2 (runFiles env dry l1 st).1).1,
         (runFiles env dry l1 st).2
           ++ (runFiles env dry l2 (runFiles env dry l1 st).1).2) := by
  induction l1 with
  | nil => intro st; simp [runFiles]
  | cons it rest ih =>
      intro st
      rw [List.cons_append]
      simp only [runFiles]
      rw [ih]
      simp

theorem runFiles_all_skipped (env : Env) (dry : Bool)
    (items : List (Entry × String)) :
    ∀ st, (∀ g ∈ items, storeContains st.store (itemHash env g) = true) →
      (runFiles env dry items st).1.store = st.store
      ∧ (runFiles env dry items st).1.summary.filesCopied
          = st.summary.filesCopied
      ∧ (runFiles env dry items st).1.summary.filesSkipped
          = st.summary.filesSkipped + items.length
      ∧ (runFiles env dry items st).2
          = List.replicate items.length .skipped := by
  induction items with
  | nil => intro st _; exact ⟨rfl, rfl, rfl, rfl⟩
  | cons it rest ih =>
      intro st hall
      have hc := hall it (List.mem_cons_self _ _)
      have hstore : (stepFile env dry st it).1.store = st.store := by
        rw [stepFile_skip env dry st it hc]
      have hcop : (stepFile env dry st it).1.summary.filesCopied
          = st.summary.filesCopied := by
        rw [stepFile_skip env dry st it hc]
      have hsk : (stepFile env dry st it).1.summary.filesSkipped
          = st.summary.filesSkipped + 1 := by
        rw [stepFile_skip env dry st it hc]
      have hact : (stepFile env dry st it).2 = .skipped := by
        rw [stepFile_skip env dry st it hc]
      obtain ⟨i1, i2, i3, i4⟩ :=
        ih (stepFile env dry st it).1
          (fun g hg => by
            rw [hstore]; exact hall g (List.mem_cons_of_mem _ hg))
      simp only [runFiles]
      refine ⟨i1.trans hstore, i2.trans hcop, ?_, ?_⟩
      · rw [i3, hsk, List.length_cons]
        omega
      · rw [i4, hact, List.length_cons, List.replicate_succ]

theorem runFiles_skip_zip (env : Env) (dry : Bool)
    (items : List (Entry × String)) :
    ∀ st h, storeContains st.store h = true →
      ∀ p ∈ items.zip (runFiles env dry items st).2,
        itemHash env p.1 = h → p.2 = .skipped := by
  induction items with
  | nil => intro st h _ p hp; cases hp
  | cons it rest ih =>
      intro st h hh p hp hph
      simp only [runFiles] at hp
      rw [List.zip_cons_cons] at hp
      rcases List.mem_cons.mp hp with rfl | hp2
      · dsimp only at hph ⊢
        rw [stepFile_skip env dry st it (by rw [hph]; exact hh)]
      · exact ih _ h ((stepFile_facts env dry st it).2.2.1 h hh) p hp2 hph

theorem runFiles_hash_present (env : Env)
    (items : List (Entry × String)) :
    ∀ st, (runFiles env false items st).1.summary.filesErrored
        = st.summary.filesErrored →
      ∀ g ∈ items,
        storeContains (runFiles env false items st).1.store (itemHash env g)
          = true := by
  induction items with
  | nil => intro st _ g hg; cases hg
  | cons it rest ih =>
      intro st herr g hg
      have hstep1 : st.summary.filesErrored
          ≤ (stepFile env false st it).1.summary.filesErrored :=
        (stepFile_facts env false st it).2.2.2.1
      have hrest : (stepFile env false st it).1.summary.filesErrored
          ≤ (runFiles env false (it :: rest) st).1.summary.filesErrored := by
        simp only [runFiles]
        exact runFiles_err_mono env false rest _
      have heq : (stepFile env false st it).1.summary.filesErrored
          = st.summary.filesErrored := by omega
      have herr2 : (runFiles env false rest
            (stepFile env false st it).1).1.summary.filesErrored
          = (stepFile env false st it).1.summary.filesErrored := by
        have : (runFiles env false (it :: rest) st).1
            = (runFiles env false rest (stepFile env false st it).1).1 := by
          simp only [runFiles]
        rw [this] at herr
        omega
      rcases List.mem_cons.mp hg with rfl | hg2
      · have hcont : storeContains (stepFile env false st g).1.store
            (itemHash env g) = true := by
          by_cases hc : storeContains st.store (itemHash env g) = true
          · exact (stepFile_facts env false st g).2.2.1 _ hc
          · have hc' : storeContains st.store (itemHash env g) = false := by
              simpa using hc
            rcases (stepFile_facts env false st g).2.2.2.2.2.2.2.2.2.2.1
                rfl hc' with ha | ha
            · exact (stepFile_facts env false st g).2.2.2.2.2.2.2.2.2.1
                rfl ha
            · have := (stepFile_facts env false st g).2.2.2.2.2.2.2.1 ha
              omega
        simp only [runFiles]
        exact runFiles_mono env false rest _ _ hcont
      · simp only [runFiles]
        exact ih _ herr2 g hg2

theorem runFiles_dry_state (env : Env)
    (items : List (Entry × String)) :
    ∀ st, (runFiles env true items st).1.store = st.store
      ∧ (runFiles env true items st).1.disk = st.disk
      ∧ (runFiles env true items st).1.saveCount = st.saveCount
      ∧ (runFiles env true items st).1.copiesSinceSave = st.copiesSinceSave
      ∧ (runFiles env true items st).1.summary.filesCopied
          = st.summary.filesCopied
            + (items.filter
                (fun g => !storeContains st.store (itemHash env g))).length := by
  induction items with
  | nil => intro st; exact ⟨rfl, rfl, rfl, rfl, rfl⟩
  | cons it rest ih =>
      intro st
      obtain ⟨i1, i2, i3, i4, i5⟩ := ih (stepFile env true st it).1
      by_cases hc : storeContains st.store (itemHash env it) = true
      · have heq := stepFile_skip env true st it hc
        have hstore : (stepFile env true st it).1.store = st.store := by
          rw [heq]
        simp only [hstore] at i1 i5
        simp only [runFiles]
        rw [List.filter_cons_of_neg (by simp [hc])]
        refine ⟨i1, ?_, ?_, ?_, ?_⟩
        · rw [i2, heq]
        · rw [i3, heq]
        · rw [i4, heq]
        · rw [i5, heq]
      · have hc' : storeContains st.store (itemHash env it) = false := by
          simpa using hc
        have heq := stepFile_dry env st it hc'
        have hstore : (stepFile env true st it).1.store = st.store := by
          rw [heq]
        simp only [hstore] at i1 i5
        simp only [runFiles]
        rw [List.filter_cons_of_pos (by simp [hc'])]
        refine ⟨i1, ?_, ?_, ?_, ?_⟩
        · rw [i2, heq]
        · rw [i3, heq]
        · rw [i4, heq]
        · rw [i5, heq, List.length_cons]
          dsimp
          omega

theorem get?_append_cons (as : List FileAction) (x : FileAction)
    (bs : List FileAction) : (as ++ x :: bs).get? as.length = some x := by
  induction as with
  | nil => rfl
  | cons a as ih =>
      rw [List.cons_append, List.length_cons, List.get?_cons_succ]
      exact ih

theorem drop_append_cons (as : List FileAction) (x : FileAction)
    (bs : List FileAction) : (as ++ x :: bs).drop (as.length + 1) = bs := by
  induction as with
  | nil => rfl
  | cons a as ih =>
      rw [List.cons_append, List.length_cons]
      exact ih

/-- C1 as amended: in a real run over files l1 ++ it :: l2 where it is
    the first file whose content hashes to h (h unknown to the catalog)
    and no per-file error occurs, the first such file is copied, every
    later file with the same content is skipped, and the catalog ends
    with exactly one record under h.  Re-running the same file sequence
    with the resulting catalog (any target-disk state) copies nothing
    and skips every scanned file — that is, copied1 + skipped1 files,
    which equals the first run's copy count exactly when the first run
    skipped nothing. -/
theorem C1_at_most_one_copy (env : Env) (store0 : CatalogStore)
    (disk0 disk2 : List PathT) (l1 l2 : List (Entry × String))
    (it : Entry × String)
    (h1 : storeContains store0 (itemHash env it) = false)
    (h2 : ∀ g ∈ l1, itemHash env g ≠ itemHash env it)
    (h3 : (runFiles env false (l1 ++ it :: l2)
        (initState env store0 disk0)).1.summary.filesErrored = 0) :
    (runFiles env false (l1 ++ it :: l2)
        (initState env store0 disk0)).2.get? l1.length
      = some FileAction.copied
    ∧ (∀ p ∈ l2.zip ((runFiles env false (l1 ++ it :: l2)
          (initState env store0 disk0)).2.drop (l1.length + 1)),
        itemHash env p.1 = itemHash env it → p.2 = FileAction.skipped)
    ∧ countKey (runFiles env false (l1 ++ it :: l2)
          (initState env store0 disk0)).1.store (itemHash env it) = 1
    ∧ (runFiles env false (l1 ++ it :: l2)
          (initState env
            (runFiles env false (l1 ++ it :: l2)
              (initState env store0 disk0)).1.store
            disk2)).1.summary.filesCopied = 0
    ∧ (runFiles env false (l1 ++ it :: l2)
          (initState env
            (runFiles env false (l1 ++ it :: l2)
              (initState env store0 disk0)).1.store
            disk2)).1.summary.filesSkipped = (l1 ++ it :: l2).length
    ∧ (runFiles env false (l1 ++ it :: l2)
          (initState env store0 disk0)).1.summary.filesCopied
        + (runFiles env false (l1 ++ it :: l2)
            (initState env store0 disk0)).1.summary.filesSkipped
        = (l1 ++ it :: l2).length := by
  set h := itemHash env it with hdef
  set init := initState env store0 disk0 with hinit
  have hinitstore : init.store = store0 := rfl
  have hiniterr : init.summary.filesErrored = 0 := rfl
  set st1 := (runFiles env false l1 init).1 with hst1
  set stp := stepFile env false st1 it with hstp
  have happ := runFiles_append env false l1 (it :: l2) init
  have hcons : runFiles env false (it :: l2) st1
      = ((runFiles env false l2 stp.1).1,
         stp.2 :: (runFiles env false l2 stp.1).2) := by
    simp only [runFiles]
  have hres1 : (runFiles env false (l1 ++ it :: l2) init).1
      = (runFiles env false l2 stp.1).1 := by
    rw [happ, hcons]
  have hres2 : (runFiles env false (l1 ++ it :: l2) init).2
      = (runFiles env false l1 init).2
          ++ stp.2 :: (runFiles env false l2 stp.1).2 := by
    rw [happ, hcons]
  -- the hash is still unknown when the loop reaches it
  have hc1 : storeContains st1.store h = false := by
    by_cases hcc : storeContains st1.store h = true
    · rcases runFiles_new_key env false l1 init h hcc with hx | ⟨g, hg, hgh⟩
      · rw [hinitstore, h1] at hx
        cases hx
      · exact absurd hgh (h2 g hg)
    · simpa using hcc
  -- no error anywhere in the run
  have herrA : init.summary.filesErrored ≤ st1.summary.filesErrored :=
    runFiles_err_mono env false l1 init
  have herrS : st1.summary.filesErrored ≤ stp.1.summary.filesErrored :=
    (stepFile_facts env false st1 it).2.2.2.1
  have herrC : stp.1.summary.filesErrored
      ≤ (runFiles env false l2 stp.1).1.summary.filesErrored :=
    runFiles_err_mono env false l2 stp.1
  have herr0 : (runFiles env false l2 stp.1).1.summary.filesErrored = 0 := by
    rw [← hres1]
    exact h3
  have herrS0 : stp.1.summary.filesErrored = st1.summary.filesErrored := by
    omega
  -- the first file with this hash is copied
  have hact : stp.2 = FileAction.copied := by
    rcases (stepFile_facts env false st1 it).2.2.2.2.2.2.2.2.2.2.1 rfl hc1
        with ha | ha
    · exact ha
    · have h8 : stp.1.summary.filesErrored
          = st1.summary.filesErrored + 1 :=
        (stepFile_facts env false st1 it).2.2.2.2.2.2.2.1 ha
      omega
  have hlenA : (runFiles env false l1 init).2.length = l1.length :=
    runFiles_len env false l1 init
  have hcontS : storeContains stp.1.store h = true :=
    (stepFile_facts env false st1 it).2.2.2.2.2.2.2.2.2.1 rfl hact
  refine ⟨?_, ?_, ?_, ?_, ?_, ?_⟩
  · rw [hres2, ← hlenA, get?_append_cons, hact]
  · intro p hp hph
    rw [hres2, ← hlenA, drop_append_cons] at hp
    exact runFiles_skip_zip env false l2 stp.1 h hcontS p hp hph
  · have hk0 : countKey st1.store h = 0 := by
      rw [runFiles_countKey_ne env false l1 init h
        (fun g hg => h2 g hg), hinitstore]
      exact countKey_eq_zero store0 h h1
    have hk1 : countKey stp.1.store h = 1 := by
      rw [(stepFile_facts env false st1 it).2.2.2.2.2.2.2.2.2.2.2
        rfl hact hc1, hk0]
    rw [hres1, runFiles_countKey_keep env false l2 stp.1 h hcontS, hk1]
  · have hall := runFiles_hash_present env (l1 ++ it :: l2) init
      (by rw [hiniterr]; exact h3)
    have has := runFiles_all_skipped env false (l1 ++ it :: l2)
      (initState env (runFiles env false (l1 ++ it :: l2) init).1.store disk2)
      (fun g hg => hall g hg)
    exact has.2.1
  · have hall := runFiles_hash_present env (l1 ++ it :: l2) init
      (by rw [hiniterr]; exact h3)
    have has := runFiles_all_skipped env false (l1 ++ it :: l2)
      (initState env (runFiles env false (l1 ++ it :: l2) init).1.store disk2)
      (fun g hg => hall g hg)
    rw [has.2.2.1]
    have hz : (initState env
        (runFiles env false (l1 ++ it :: l2) init).1.store
        disk2).summary.filesSkipped = 0 := rfl
    omega
  · have hsum := runFiles_sum env false (l1 ++ it :: l2) init
    have hz : init.summary.filesCopied = 0 := rfl
    have hz2 : init.summary.filesSkipped = 0 := rfl
    omega

/-- C1 counterexample: with two identical-content files and a fresh
    catalog the first run copies one and skips one; the second run
    copies zero and skips both scanned files — two, not N = 1, so the
    claimed "skips N where N is the first run's copy count" fails. -/
theorem C1_counterexample :
    dupRun1.1.summary.filesCopied = 1
    ∧ dupRun1.1.summary.filesSkipped = 1
    ∧ dupRun2.1.summary.filesCopied = 0
    ∧ dupRun2.1.summary.filesSkipped = 2
    ∧ dupRun2.1.summary.filesSkipped ≠ dupRun1.1.summary.filesCopied := by
  exact ⟨by decide, by decide, by decide, by decide, by decide⟩

/-- Witness for C1 at the concrete duplicate pair. -/
theorem C1_witness :
    (runFiles envFix false
        ([] ++ (fileEntry ["a.jpg"] "same", "image")
          :: [(fileEntry ["b.jpg"] "same", "image")])
        (initState envFix (freshCatalog "T") [])).2.get? 0
      = some FileAction.copied :=
  (C1_at_most_one_copy envFix (freshCatalog "T") [] []
    [] [(fileEntry ["b.jpg"] "same", "image")]
    (fileEntry ["a.jpg"] "same", "image")
    (by decide) (fun g hg => absurd hg (List.not_mem_nil g))
    (by decide)).1

/-- C10: in preview mode the loop never touches the store, the target
    disk or the save counter, so duplicate detection cannot see files
    copied earlier in the same run: every file whose hash is missing
    from the starting catalog is counted as copied.  Concretely, a
    preview over two identical files reports 2 copies while the real
    run copies only 1 — the preview count exceeds the real one. -/
theorem C10_preview_counts (env : Env) (tree : List Entry)
    (store0 : CatalogStore) (disk0 : List PathT) :
    (process_source env tree store0 true disk0).1.store = store0
    ∧ (process_source env tree store0 true disk0).1.disk = disk0
    ∧ (process_source env tree store0 true disk0).1.saveCount = 0
    ∧ (process_source env tree store0 true disk0).1.summary.filesCopied
        = ((scan_directory tree emptyExcludes).filter
            (fun g => !storeContains store0 (itemHash env g))).length
    ∧ (process_source envFix dupSource (freshCatalog "T")
        true []).1.summary.filesCopied = 2
    ∧ record_count (process_source envFix dupSource (freshCatalog "T")
        true []).1.store = 0
    ∧ dupRun1.1.summary.filesCopied = 1
    ∧ dupRun1.1.summary.filesCopied
        < (process_source envFix dupSource (freshCatalog "T")
            true []).1.summary.filesCopied := by
  have hd := runFiles_dry_state env (scan_directory tree emptyExcludes)
    (initState env store0 disk0)
  refine ⟨?_, ?_, ?_, ?_, by decide, by decide, by decide, by decide⟩
  · exact hd.1
  · exact hd.2.1
  · exact hd.2.2.1
  · have h5 := hd.2.2.2.2
    simp only [show (initState env store0 disk0).store = store0 from rfl]
      at h5
    have hz : (initState env store0 disk0).summary.filesCopied = 0 := rfl
    have hps : (process_source env tree store0 true disk0).1.summary.filesCopied
        = (runFiles env true (scan_directory tree emptyExcludes)
            (initState env store0 disk0)).1.summary.filesCopied := rfl
    rw [hps, h5]
    omega

end MediaCatalog
